import Mathlib

/-!
Shallow embedding of the streaming voice-activity segmentation engine of
`src/omi_continuous_recorder.py` (class `AutoRecorder`), together with proofs
of the specification's claims about it.

Modelling conventions:
* A raw packet and a PCM buffer are `List ℕ` of byte values; a decoded sample
  is a signed 16-bit value carried as `ℤ`.
* The monotonic clock value `now` (Python `asyncio.get_event_loop().time()`)
  is a rational number.
* The opaque libopus codec call inside `decode_opus` is an oracle parameter:
  `none` models a decode error or a non-positive sample count, `some samples`
  models a successful decode returning those samples.
* The wall-clock timestamp string produced by `datetime.now().strftime` is an
  oracle parameter `ts`.
* The fallible WAV write is driven by an oracle `ioOk : Bool`; when the write
  raises, the step result is `StepResult.raised s` where `s` is the recorder
  state left behind at the moment the exception escaped.
-/

/-- Constant `SAMPLE_RATE = 16000` (line 20 of the source). -/
def SAMPLE_RATE : ℕ := 16000

/-- Constant `SILENCE_THRESHOLD = 500` (line 23): RMS below this is silence. -/
def SILENCE_THRESHOLD : ℤ := 500

/-- Constant `SILENCE_DURATION = 3.0` (line 24): seconds of silence before saving. -/
def SILENCE_DURATION : ℚ := 3

/-- Constant `MIN_RECORDING_DURATION = 1.0` (line 25): minimum seconds to save. -/
def MIN_RECORDING_DURATION : ℚ := 1

/-- Interpretation of a 16-bit unsigned value as a signed 16-bit sample,
as `struct.unpack('<..h', ...)` does. -/
def toSigned16 (n : ℕ) : ℤ :=
  if n < 32768 then (n : ℤ) else (n : ℤ) - 65536

/-- Little-endian byte serialization of one signed 16-bit sample, as
`ctypes.string_at` reads the `c_int16` output buffer of the codec. -/
def int16ToBytesLE (v : ℤ) : List ℕ :=
  [((v % 65536) % 256).toNat, ((v % 65536) / 256).toNat]

/-- Byte serialization of a whole sample buffer (2 bytes per sample,
little-endian), as `ctypes.string_at(pcm_buffer, samples * 2)`. -/
def pcmBytes : List ℤ → List ℕ
  | [] => []
  | v :: rest => int16ToBytesLE v ++ pcmBytes rest

/-- Interpretation of a PCM byte buffer as `len/2` signed 16-bit little-endian
samples, as `struct.unpack(f'<{len(pcm_data)//2}h', pcm_data)`. A trailing odd
byte is not consumed here; the faithful `get_audio_level` below instead raises
(returns `none`) on odd-length buffers of length ≥ 2, as `struct.unpack` does. -/
def bytesToSamples : List ℕ → List ℤ
  | b0 :: b1 :: rest => toSigned16 (b0 + 256 * b1) :: bytesToSamples rest
  | _ => []

/-- Embedding of `AutoRecorder.decode_opus` (lines 126-140): packets of length ≤ 3 yield
`b''`; otherwise the codec oracle either fails (`none`, modelling an exception
or `samples ≤ 0`) yielding `b''`, or produces `samples` whose 2-bytes-per-sample
little-endian serialization is returned (`if samples > 0` guard of line 136). -/
def decode_opus (dataLen : ℕ) (codec : Option (List ℤ)) : List ℕ :=
  if dataLen ≤ 3 then []
  else
    match codec with
    | none => []
    | some samples => if 0 < samples.length then pcmBytes samples else []

/-- Sum of squared sample values (`sum(s * s for s in samples)`, line 151). -/
def sumSquares (l : List ℤ) : ℤ := (l.map (fun s => s * s)).sum

/-- Embedding of `AutoRecorder.get_audio_level` (lines 142-153): buffers shorter than 2
bytes give level 0; otherwise the buffer is unpacked as `len//2` signed 16-bit
little-endian samples — which raises `struct.error` (modelled as `none`) when
the length is odd — and the RMS `sqrt(sum_squares / len(samples))` is returned. -/
noncomputable def get_audio_level (pcm : List ℕ) : Option ℝ :=
  if pcm.length < 2 then some 0
  else if pcm.length % 2 = 0 then
    some (Real.sqrt ((sumSquares (bytesToSamples pcm) : ℝ) /
      ((bytesToSamples pcm).length : ℝ)))
  else none

/-- Executable form of the speech test `get_audio_level(pcm) > SILENCE_THRESHOLD`
(line 165): for a buffer of `n` samples with sum of squares `ss`, the RMS
`sqrt(ss / n)` exceeds 500 iff `500² · n < ss`. The equivalence with the RMS
form is proved in `is_speech_frame_correct`. -/
def is_speech_frame (pcm : List ℕ) : Bool :=
  let samples := bytesToSamples pcm
  decide (SILENCE_THRESHOLD ^ 2 * (samples.length : ℤ) < sumSquares samples)

/-- The mutable fields of `AutoRecorder` (lines 110-124) that the per-packet
path touches. -/
structure AutoRecorder where
  is_recording : Bool
  decoded_pcm : List (List ℕ)
  recording_count : ℕ
  last_speech_time : ℚ
  recording_start_time : ℚ
  pre_buffer : List (List ℕ)
  total_packets : ℕ
deriving DecidableEq

/-- Embedding of `AutoRecorder.__init__` (lines 110-124). -/
def initState : AutoRecorder :=
  { is_recording := false
    decoded_pcm := []
    recording_count := 0
    last_speech_time := 0
    recording_start_time := 0
    pre_buffer := []
    total_packets := 0 }

/-- Embedding of `deque(maxlen=10).append`: push on the right, evicting the oldest (leftmost)
element when the deque already holds 10 (line 121). -/
def dequePush (buf : List (List ℕ)) (x : List ℕ) : List (List ℕ) :=
  let l := buf ++ [x]
  if 10 < l.length then l.drop (l.length - 10) else l

/-- Observable per-packet output (the lifecycle prints of the source, §6 of the
spec: `SessionStarted`, `SessionSaved{path, duration, size}`,
`SessionDiscarded{duration}`). -/
inductive Event
  | sessionStarted
  | sessionSaved (path : String) (duration : ℚ) (size : ℕ)
  | sessionDiscarded (duration : ℚ)
deriving DecidableEq

/-- Modelled from the spec: the WAV container written by the (stdlib, not in
`src/`) `wave` module — a standard fixed 44-byte header declaring channel
count, sample width and frame rate, followed by the raw frame data written by
the `wav.writeframes(pcm)` loop in order (lines 223-228). -/
structure WavFile where
  nchannels : ℕ
  sampwidth : ℕ
  framerate : ℕ
  data : List ℕ
deriving DecidableEq

/-- The file `save_recording` writes: `setnchannels(1)`, `setsampwidth(2)`,
`setframerate(SAMPLE_RATE)`, then every frame of `decoded_pcm` in order. -/
def writeWav (frames : List (List ℕ)) : WavFile :=
  { nchannels := 1, sampwidth := 2, framerate := SAMPLE_RATE,
    data := frames.flatten }

/-- Modelled from the spec: the byte size reported by `wav_file.stat().st_size`
for a standard fixed-header WAV container — 44 header bytes plus the data. -/
def wavFileSize (w : WavFile) : ℕ := 44 + w.data.length

/-- Embedding of the name template of line 221, `omi_auto_` + timestamp + `.wav`: the output name depends on the
wall-clock timestamp string only. -/
def recordingFileName (ts : String) : String := "omi_auto_" ++ ts ++ ".wav"

/-- Total byte count of the accumulated frames
(`sum(len(p) for p in self.decoded_pcm)`, line 212). -/
def totalBytes (frames : List (List ℕ)) : ℕ := (frames.map List.length).sum

/-- The duration `save_recording` computes: `(total_bytes // 2) / SAMPLE_RATE`
(line 213) — integer floor halving then exact division. -/
def recordedDuration (frames : List (List ℕ)) : ℚ :=
  ((totalBytes frames / 2 : ℕ) : ℚ) / (SAMPLE_RATE : ℚ)

/-- What one call of `save_recording` can come to. -/
inductive SaveResult
  | noFrames
  | tooShort (duration : ℚ)
  | saved (path : String) (duration : ℚ) (size : ℕ) (file : WavFile)
deriving DecidableEq

/-- Result of `save_recording`, with the recorder state threaded through;
`raised s` models the WAV-write exception escaping with state `s` behind. -/
inductive SaveOutcome
  | ok (s : AutoRecorder) (r : SaveResult)
  | raised (s : AutoRecorder)
deriving DecidableEq

/-- Embedding of `AutoRecorder.save_recording` (lines 207-232). An empty `decoded_pcm`
returns `None` at once with no report; a duration below the minimum prints the
discard and returns `None`; otherwise `recording_count` is incremented, the WAV
file is written (which may raise — oracle `ioOk`), and path/duration/size are
reported. -/
def save_recording (s : AutoRecorder) (ts : String) (ioOk : Bool) : SaveOutcome :=
  if s.decoded_pcm = [] then SaveOutcome.ok s SaveResult.noFrames
  else if recordedDuration s.decoded_pcm < MIN_RECORDING_DURATION then
    SaveOutcome.ok s (SaveResult.tooShort (recordedDuration s.decoded_pcm))
  else if ioOk then
    SaveOutcome.ok { s with recording_count := s.recording_count + 1 }
      (SaveResult.saved (recordingFileName ts) (recordedDuration s.decoded_pcm)
        (wavFileSize (writeWav s.decoded_pcm)) (writeWav s.decoded_pcm))
  else SaveOutcome.raised { s with recording_count := s.recording_count + 1 }

/-- Events printed by one `SaveResult` (lines 216 and 231). -/
def saveEvents : SaveResult → List Event
  | SaveResult.noFrames => []
  | SaveResult.tooShort d => [Event.sessionDiscarded d]
  | SaveResult.saved p d sz _ => [Event.sessionSaved p d sz]

/-- Result of one per-packet step: either a new state with its emitted events,
or an exception escaping the handler leaving state `s` behind. -/
inductive StepResult
  | ok (s : AutoRecorder) (events : List Event)
  | raised (s : AutoRecorder)
deriving DecidableEq

/-- Lines 164-205 of `AutoRecorder.handle_audio`: the per-frame logic run on a
non-empty decoded PCM buffer. The speech test updates `last_speech_time`
before the recording branch; while idle the frame is pushed into the pre-roll
deque and, on speech, the deque is drained into a fresh `decoded_pcm`; while
recording the frame is appended and the silence timeout
`now - last_speech_time > SILENCE_DURATION` is then checked. -/
def handle_frame (s : AutoRecorder) (now : ℚ) (pcm : List ℕ) (ts : String)
    (ioOk : Bool) : StepResult :=
  let is_speech := is_speech_frame pcm
  let s := if is_speech then { s with last_speech_time := now } else s
  if s.is_recording = false then
    let s := { s with pre_buffer := dequePush s.pre_buffer pcm }
    if is_speech then
      StepResult.ok
        { s with
          is_recording := true
          recording_start_time := now
          decoded_pcm := s.pre_buffer
          pre_buffer := [] }
        [Event.sessionStarted]
    else StepResult.ok s []
  else
    let s := { s with decoded_pcm := s.decoded_pcm ++ [pcm] }
    let silence_duration := now - s.last_speech_time
    if SILENCE_DURATION < silence_duration then
      match save_recording s ts ioOk with
      | SaveOutcome.ok s' r =>
          StepResult.ok { s' with is_recording := false, decoded_pcm := [] }
            (saveEvents r)
      | SaveOutcome.raised s' => StepResult.raised s'
    else StepResult.ok s []

/-- Embedding of `AutoRecorder.handle_audio` (lines 155-205): the per-packet entry point.
`total_packets` is incremented first; then the packet is decoded and an empty
decode result returns at once; otherwise the frame logic runs. -/
def handle_audio (s : AutoRecorder) (now : ℚ) (data : List ℕ)
    (codec : Option (List ℤ)) (ts : String) (ioOk : Bool) : StepResult :=
  let s := { s with total_packets := s.total_packets + 1 }
  let pcm := decode_opus data.length codec
  if pcm = [] then StepResult.ok s []
  else handle_frame s now pcm ts ioOk

/-- The forced flush at stream end (lines 263-266 of `AutoRecorder.run`):
`if self.is_recording and self.decoded_pcm: self.save_recording()` — note that
neither `is_recording` nor `decoded_pcm` is reset afterwards. -/
def flush (s : AutoRecorder) (ts : String) (ioOk : Bool) : StepResult :=
  if s.is_recording = true ∧ s.decoded_pcm ≠ [] then
    match save_recording s ts ioOk with
    | SaveOutcome.ok s' r => StepResult.ok s' (saveEvents r)
    | SaveOutcome.raised s' => StepResult.raised s'
  else StepResult.ok s []

/-- Folding `handle_frame` over a list of `(now, pcm)` inputs, collecting
emitted events, propagating a raised exception. -/
def handle_frames (s : AutoRecorder) (inputs : List (ℚ × List ℕ)) (ts : String)
    (ioOk : Bool) : StepResult :=
  match inputs with
  | [] => StepResult.ok s []
  | (now, pcm) :: rest =>
    match handle_frame s now pcm ts ioOk with
    | StepResult.raised s' => StepResult.raised s'
    | StepResult.ok s' evs =>
      match handle_frames s' rest ts ioOk with
      | StepResult.raised s'' => StepResult.raised s''
      | StepResult.ok s'' evs' => StepResult.ok s'' (evs ++ evs')

/-! ### Supporting lemmas -/

lemma pcmBytes_length (l : List ℤ) : (pcmBytes l).length = 2 * l.length := by
  induction l with
  | nil => rfl
  | cons v rest ih =>
    simp [pcmBytes, int16ToBytesLE, ih]
    ring

lemma decode_opus_length_even (n : ℕ) (c : Option (List ℤ)) :
    (decode_opus n c).length % 2 = 0 := by
  unfold decode_opus
  split
  · rfl
  · match c with
    | none => rfl
    | some samples =>
      simp only
      split
      · rw [pcmBytes_length, Nat.mul_mod_right]
      · rfl

lemma bytesToSamples_length :
    ∀ pcm : List ℕ, (bytesToSamples pcm).length = pcm.length / 2
  | [] => by simp [bytesToSamples]
  | [_] => by simp [bytesToSamples]
  | b0 :: b1 :: rest => by
    simp [bytesToSamples, bytesToSamples_length rest]
    omega

lemma get_audio_level_isSome_of_even (pcm : List ℕ) (h : pcm.length % 2 = 0) :
    (get_audio_level pcm).isSome = true := by
  unfold get_audio_level
  split
  · rfl
  · simp [h]

lemma sumSquares_nonneg (l : List ℤ) : 0 ≤ sumSquares l := by
  induction l with
  | nil => simp [sumSquares]
  | cons v rest ih =>
    simp only [sumSquares, List.map_cons, List.sum_cons]
    have : 0 ≤ v * v := mul_self_nonneg v
    simpa [sumSquares] using add_nonneg this ih

/-- Bridge between the executable speech test of the embedding and the
real-valued RMS comparison `get_audio_level(pcm) > SILENCE_THRESHOLD` of the
source: whenever `get_audio_level` returns a level (it always does on decoder
output), the source's comparison and `is_speech_frame` agree. -/
theorem is_speech_frame_correct (pcm : List ℕ) (r : ℝ)
    (h : get_audio_level pcm = some r) :
    ((SILENCE_THRESHOLD : ℝ) < r ↔ is_speech_frame pcm = true) := by
  unfold get_audio_level at h
  split at h
  · -- length < 2: level is 0, and the sample list is empty
    rename_i hlt
    have hr : r = 0 := by
      simpa using h.symm
    subst hr
    constructor
    · intro hc
      exfalso
      rw [SILENCE_THRESHOLD] at hc
      norm_num at hc
    · intro hc
      exfalso
      have hsamples : bytesToSamples pcm = [] := by
        match pcm, hlt with
        | [], _ => rfl
        | [b], _ => rfl
      rw [is_speech_frame] at hc
      simp only [hsamples] at hc
      rw [SILENCE_THRESHOLD] at hc
      norm_num [sumSquares] at hc
  · split at h
    · rename_i hge heven
      have hr := Option.some.inj h
      subst hr
      have hlen2 : 2 ≤ pcm.length := by omega
      have hn : 0 < (bytesToSamples pcm).length := by
        rw [bytesToSamples_length]
        omega
      set samples := bytesToSamples pcm with hs
      set n : ℝ := (samples.length : ℝ) with hnr
      have hnpos : (0 : ℝ) < n := by
        simpa [hnr] using Nat.cast_pos.mpr hn
      have hq : (0 : ℝ) ≤ (sumSquares samples : ℝ) / n :=
        div_nonneg (by exact_mod_cast sumSquares_nonneg samples) hnpos.le
      rw [SILENCE_THRESHOLD]
      rw [show ((500 : ℤ) : ℝ) = (500 : ℝ) by norm_num]
      rw [Real.lt_sqrt (by norm_num)]
      rw [lt_div_iff₀ hnpos]
      rw [is_speech_frame]
      simp only [← hs, decide_eq_true_eq, SILENCE_THRESHOLD]
      constructor
      · intro hlt'
        have : ((500 : ℤ) ^ 2 * (samples.length : ℤ) : ℝ) < (sumSquares samples : ℝ) := by
          push_cast
          push_cast at hlt'
          linarith
        exact_mod_cast this
      · intro hlt'
        have : ((500 : ℤ) ^ 2 * (samples.length : ℤ) : ℝ) < (sumSquares samples : ℝ) := by
          exact_mod_cast hlt'
        push_cast at this
        linarith
    · exact absurd h (by simp)

/-! ### Claim C1 -/

/-- A full pre-roll buffer of ten distinct frames, for the C1 counterexample. -/
def preRollTen : List (List ℕ) :=
  [[1, 0], [2, 0], [3, 0], [4, 0], [5, 0], [6, 0], [7, 0], [8, 0], [9, 0], [10, 0]]

/-- C1, counterexample: with a full (10-frame) pre-roll buffer, the incoming
loud frame is pushed into the deque *before* it is drained, evicting the oldest
pre-roll frame — so the new session's frames are NOT the drained pre-roll
followed by the current frame: the oldest pre-roll frame is missing. -/
theorem C1_counterexample :
    handle_frame { initState with pre_buffer := preRollTen } 1 [0, 4] "t" true =
      StepResult.ok
        { initState with
          last_speech_time := 1
          is_recording := true
          recording_start_time := 1
          decoded_pcm := preRollTen.tail ++ [[0, 4]]
          pre_buffer := [] }
        [Event.sessionStarted]
    ∧ preRollTen.tail ++ [[0, 4]] ≠ preRollTen ++ [[0, 4]] := by decide

/-- C1 (amended): on speech onset from `Idle`, the new session's frames are the
pre-roll deque *after pushing the current frame* (evicting the oldest frame
when the deque already holds 10) — which equals the drained pre-roll followed
by the current frame exactly when the pre-roll held fewer than 10 frames. The
pre-roll buffer is left empty, `last_speech_time` and `recording_start_time`
are set to `now`, the state becomes recording, and `SessionStarted` is
emitted. -/
theorem speech_onset_session_frames (s : AutoRecorder) (now : ℚ) (pcm : List ℕ)
    (ts : String) (ioOk : Bool)
    (hidle : s.is_recording = false) (hspeech : is_speech_frame pcm = true) :
    handle_frame s now pcm ts ioOk =
      StepResult.ok
        { s with
          last_speech_time := now
          is_recording := true
          recording_start_time := now
          decoded_pcm := dequePush s.pre_buffer pcm
          pre_buffer := [] }
        [Event.sessionStarted]
    ∧ (s.pre_buffer.length < 10 →
        dequePush s.pre_buffer pcm = s.pre_buffer ++ [pcm]) := by
  constructor
  · simp [handle_frame, hspeech, hidle]
  · intro hlt
    unfold dequePush
    rw [if_neg (by simp; omega)]

/-- Witness for C1's amended theorem at a concrete input: one frame of
pre-roll, a loud incoming frame. -/
theorem speech_onset_session_frames_witness :
    ({ initState with pre_buffer := [[1, 0]] } : AutoRecorder).is_recording = false ∧
    is_speech_frame [0, 4] = true ∧
    (handle_frame { initState with pre_buffer := [[1, 0]] } 2 [0, 4] "t" true =
      StepResult.ok
        { { initState with pre_buffer := [[1, 0]] } with
          last_speech_time := 2
          is_recording := true
          recording_start_time := 2
          decoded_pcm := dequePush [[1, 0]] [0, 4]
          pre_buffer := [] }
        [Event.sessionStarted]
    ∧ (([[1, 0]] : List (List ℕ)).length < 10 →
        dequePush [[1, 0]] [0, 4] = [[1, 0]] ++ [[0, 4]])) :=
  ⟨by decide, by decide,
    speech_onset_session_frames { initState with pre_buffer := [[1, 0]] } 2 [0, 4]
      "t" true (by decide) (by decide)⟩

/-! ### Claim C2 -/

/-- C2 (confirmed): while recording, a frame whose loudness exceeds the
threshold first resets `last_speech_time` to `now`, so the silence-timeout
comparison sees an elapsed silence of 0 and never finalizes — regardless of
how much time passed since the previous speech frame. The step only appends
the frame and updates the timestamp. -/
theorem speech_frame_never_finalizes (s : AutoRecorder) (now : ℚ) (pcm : List ℕ)
    (ts : String) (ioOk : Bool)
    (hrec : s.is_recording = true) (hspeech : is_speech_frame pcm = true) :
    handle_frame s now pcm ts ioOk =
      StepResult.ok
        { s with last_speech_time := now, decoded_pcm := s.decoded_pcm ++ [pcm] }
        [] := by
  simp [handle_frame, hspeech, hrec, SILENCE_DURATION]

/-- Witness for C2 at a concrete input: 100 seconds have passed since the last
speech, yet the loud frame does not finalize the session. -/
theorem speech_frame_never_finalizes_witness :
    ({ initState with is_recording := true, decoded_pcm := [[0, 0]] } : AutoRecorder).is_recording = true ∧
    is_speech_frame [0, 4] = true ∧
    handle_frame { initState with is_recording := true, decoded_pcm := [[0, 0]] }
        100 [0, 4] "t" true =
      StepResult.ok
        { { initState with is_recording := true, decoded_pcm := [[0, 0]] } with
          last_speech_time := 100
          decoded_pcm := [[0, 0]] ++ [[0, 4]] }
        [] :=
  ⟨by decide, by decide,
    speech_frame_never_finalizes
      { initState with is_recording := true, decoded_pcm := [[0, 0]] }
      100 [0, 4] "t" true (by decide) (by decide)⟩

/-! ### Claim C4 -/

/-- C4, counterexample: a packet of length 3 does change the recorder state —
`total_packets` is incremented before the length check, so the entry point is
not free of observable state change. -/
theorem C4_counterexample :
    handle_audio initState 0 [0, 0, 0] none "t" true ≠
      StepResult.ok initState [] ∧
    handle_audio initState 0 [0, 0, 0] none "t" true =
      StepResult.ok { initState with total_packets := initState.total_packets + 1 }
        [] := by decide

/-- C4 (amended): for every packet of length ≤ 3 the entry point increments
`total_packets` and does nothing else: segmenter state, pre-roll buffer,
accumulated frames, timestamps and the session counter are unchanged, and no
event is emitted. -/
theorem short_packet_only_counts (s : AutoRecorder) (now : ℚ) (data : List ℕ)
    (codec : Option (List ℤ)) (ts : String) (ioOk : Bool)
    (hlen : data.length ≤ 3) :
    handle_audio s now data codec ts ioOk =
      StepResult.ok { s with total_packets := s.total_packets + 1 } [] := by
  simp [handle_audio, decode_opus, hlen]

/-- Witness for C4's amended theorem at a concrete input. -/
theorem short_packet_only_counts_witness :
    ([0, 0, 0] : List ℕ).length ≤ 3 ∧
    handle_audio initState 5 [0, 0, 0] (some [7]) "t" true =
      StepResult.ok { initState with total_packets := initState.total_packets + 1 }
        [] :=
  ⟨by decide,
    short_packet_only_counts initState 5 [0, 0, 0] (some [7]) "t" true (by decide)⟩

/-! ### Claim C10 -/

/-- C10 (confirmed): every buffer the decoder returns has even byte length
(2 bytes per decoded sample), so the loudness computation — which unpacks
`len/2` signed 16-bit little-endian samples and raises on a length mismatch —
is total on decoder output; and any empty or sub-sample (shorter than 2 bytes)
buffer yields loudness 0. -/
theorem decoder_output_loudness_total (n : ℕ) (codec : Option (List ℤ))
    (pcm : List ℕ) :
    (decode_opus n codec).length % 2 = 0 ∧
    (get_audio_level (decode_opus n codec)).isSome = true ∧
    (pcm.length < 2 → get_audio_level pcm = some 0) := by
  refine ⟨decode_opus_length_even n codec,
    get_audio_level_isSome_of_even _ (decode_opus_length_even n codec), ?_⟩
  intro h
  rw [get_audio_level, if_pos h]

/-- Witness for C10 at concrete inputs: a decoded one-sample packet and a
one-byte buffer. -/
theorem decoder_output_loudness_total_witness :
    (decode_opus 10 (some [5])).length % 2 = 0 ∧
    (get_audio_level (decode_opus 10 (some [5]))).isSome = true ∧
    ([7] : List ℕ).length < 2 ∧ get_audio_level [7] = some 0 := by
  obtain ⟨h1, h2, h3⟩ := decoder_output_loudness_total 10 (some [5]) [7]
  exact ⟨h1, h2, by norm_num, h3 (by norm_num)⟩

/-! ### Claim C5 -/

lemma dequePush_length_le (buf : List (List ℕ)) (x : List ℕ)
    (h : buf.length ≤ 10) : (dequePush buf x).length ≤ 10 := by
  simp only [dequePush]
  split
  · rename_i hgt
    simp only [List.length_drop]
    omega
  · rename_i hle
    simp only [List.length_append, List.length_cons, List.length_nil] at *
    omega

/-- One idle step on a non-speech frame just pushes the frame into the
pre-roll deque. -/
lemma silent_idle_step (s : AutoRecorder) (now : ℚ) (pcm : List ℕ)
    (ts : String) (ioOk : Bool)
    (hidle : s.is_recording = false) (hns : is_speech_frame pcm = false) :
    handle_frame s now pcm ts ioOk =
      StepResult.ok { s with pre_buffer := dequePush s.pre_buffer pcm } [] := by
  simp [handle_frame, hns, hidle]

/-- C5 (confirmed): starting idle with a pre-roll of at most 10 frames, any
sequence of non-empty frames whose loudness never exceeds the threshold leaves
the segmenter idle, emits no event (in particular no file is ever produced and
nothing raises), and keeps the pre-roll buffer at no more than 10 frames.
Since the hypothesis is closed under prefixes, this holds after every step. -/
theorem silent_frames_stay_idle (s : AutoRecorder) (inputs : List (ℚ × List ℕ))
    (ts : String) (ioOk : Bool)
    (hin : ∀ p ∈ inputs, p.2 ≠ [] ∧ is_speech_frame p.2 = false)
    (hidle : s.is_recording = false) (hbuf : s.pre_buffer.length ≤ 10) :
    ∃ s', handle_frames s inputs ts ioOk = StepResult.ok s' [] ∧
      s'.is_recording = false ∧ s'.pre_buffer.length ≤ 10 := by
  induction inputs generalizing s with
  | nil => exact ⟨s, rfl, hidle, hbuf⟩
  | cons p rest ih =>
    obtain ⟨now, pcm⟩ := p
    have hp := hin _ (List.mem_cons_self _ _)
    have hstep := silent_idle_step s now pcm ts ioOk hidle hp.2
    obtain ⟨s', hrun, hrec', hbuf'⟩ :=
      ih (fun q hq => hin q (List.mem_cons_of_mem _ hq))
        (s := { s with pre_buffer := dequePush s.pre_buffer pcm })
        hidle (dequePush_length_le _ _ hbuf)
    refine ⟨s', ?_, hrec', hbuf'⟩
    simp [handle_frames, hstep, hrun]

/-- Witness for C5 at a concrete input: two quiet frames from the initial
state. -/
theorem silent_frames_stay_idle_witness :
    (∀ p ∈ ([(1, [0, 0]), (2, [1, 0])] : List (ℚ × List ℕ)),
      p.2 ≠ [] ∧ is_speech_frame p.2 = false) ∧
    initState.is_recording = false ∧ initState.pre_buffer.length ≤ 10 ∧
    (∃ s', handle_frames initState [(1, [0, 0]), (2, [1, 0])] "t" true =
        StepResult.ok s' [] ∧
      s'.is_recording = false ∧ s'.pre_buffer.length ≤ 10) :=
  ⟨by decide, by decide, by decide,
    silent_frames_stay_idle initState [(1, [0, 0]), (2, [1, 0])] "t" true
      (by decide) (by decide) (by decide)⟩

/-! ### Claim C6 -/

/-- C6, counterexample: finalizing a session with zero frames returns silently
with no discard report at all — the `if not self.decoded_pcm: return None`
guard fires before any duration is computed — whereas the claim requires every
below-minimum finalize to report a discard with the computed duration (here
duration 0). -/
theorem C6_counterexample :
    save_recording { initState with is_recording := true } "t" true =
      SaveOutcome.ok { initState with is_recording := true } SaveResult.noFrames ∧
    saveEvents SaveResult.noFrames = [] ∧
    SaveResult.noFrames ≠ SaveResult.tooShort 0 := by decide

/-- C6 (amended): finalize computes the duration as
`(total byte count // 2) / sample_rate` — which equals total sample count /
sample rate since every decoded frame has even byte length — and whenever that
duration is below the minimum and the session has at least one frame, no file
is written and a discard carrying the computed duration is reported; a session
with zero frames returns silently (no file, no report) without any division by
zero. -/
theorem short_session_discarded (s : AutoRecorder) (ts : String) (ioOk : Bool) :
    (s.decoded_pcm = [] →
      save_recording s ts ioOk = SaveOutcome.ok s SaveResult.noFrames) ∧
    (s.decoded_pcm ≠ [] →
      recordedDuration s.decoded_pcm < MIN_RECORDING_DURATION →
      save_recording s ts ioOk =
        SaveOutcome.ok s (SaveResult.tooShort (recordedDuration s.decoded_pcm))) := by
  constructor
  · intro h
    simp [save_recording, h]
  · intro h hd
    simp [save_recording, h, hd]

/-- Witness for C6's amended theorem at concrete inputs: the zero-frame branch
at the initial state and the short-session branch on a single tiny frame. -/
theorem short_session_discarded_witness :
    initState.decoded_pcm = [] ∧
    save_recording initState "t" true = SaveOutcome.ok initState SaveResult.noFrames ∧
    ({ initState with decoded_pcm := [[0, 0]] } : AutoRecorder).decoded_pcm ≠ [] ∧
    recordedDuration [[0, 0]] < MIN_RECORDING_DURATION ∧
    save_recording { initState with decoded_pcm := [[0, 0]] } "t" true =
      SaveOutcome.ok { initState with decoded_pcm := [[0, 0]] }
        (SaveResult.tooShort (recordedDuration [[0, 0]])) :=
  ⟨by decide, (short_session_discarded initState "t" true).1 (by decide),
    by decide,
    by norm_num [recordedDuration, totalBytes, MIN_RECORDING_DURATION, SAMPLE_RATE],
    (short_session_discarded { initState with decoded_pcm := [[0, 0]] } "t" true).2
      (by decide)
      (by norm_num [recordedDuration, totalBytes, MIN_RECORDING_DURATION, SAMPLE_RATE])⟩

/-! ### Further supporting lemmas -/

/-- Total decoded sample count across a session's frames. -/
def totalSamples (frames : List (List ℕ)) : ℕ :=
  (frames.map (fun f => (bytesToSamples f).length)).sum

lemma totalSamples_eq_half (frames : List (List ℕ))
    (h : ∀ f ∈ frames, f.length % 2 = 0) :
    2 * totalSamples frames = totalBytes frames := by
  induction frames with
  | nil => rfl
  | cons f rest ih =>
    have hf := h f (List.mem_cons_self _ _)
    have ihr := ih (fun g hg => h g (List.mem_cons_of_mem _ hg))
    simp only [totalSamples, totalBytes, List.map_cons, List.sum_cons] at *
    rw [bytesToSamples_length]
    omega

lemma bytesToSamples_cons₂ (b0 b1 : ℕ) (rest : List ℕ) :
    bytesToSamples (b0 :: b1 :: rest) =
      toSigned16 (b0 + 256 * b1) :: bytesToSamples rest := by
  simp [bytesToSamples]

lemma bytesToSamples_append :
    ∀ a b : List ℕ, a.length % 2 = 0 →
      bytesToSamples (a ++ b) = bytesToSamples a ++ bytesToSamples b
  | [], b, _ => by simp [bytesToSamples]
  | [x], b, h => by simp at h
  | x :: y :: rest, b, h => by
    have hrest : rest.length % 2 = 0 := by
      simp only [List.length_cons] at h
      omega
    simp only [List.cons_append, bytesToSamples_cons₂,
      bytesToSamples_append rest b hrest, List.cons.injEq, true_and]

lemma bytesToSamples_flatten (frames : List (List ℕ))
    (h : ∀ fr ∈ frames, fr.length % 2 = 0) :
    bytesToSamples frames.flatten = (frames.map bytesToSamples).flatten := by
  induction frames with
  | nil => simp [bytesToSamples]
  | cons fr rest ih =>
    have hf := h fr (List.mem_cons_self _ _)
    have ihr := ih (fun g hg => h g (List.mem_cons_of_mem _ hg))
    simp only [List.flatten_cons, List.map_cons,
      bytesToSamples_append fr rest.flatten hf, ihr]

/-- Inversion of a successful (kept, written) `save_recording`. -/
lemma save_recording_saved_inv (s s' : AutoRecorder) (ts : String) (ioOk : Bool)
    (p : String) (d : ℚ) (sz : ℕ) (f : WavFile)
    (h : save_recording s ts ioOk = SaveOutcome.ok s' (SaveResult.saved p d sz f)) :
    p = recordingFileName ts ∧ d = recordedDuration s.decoded_pcm ∧
    f = writeWav s.decoded_pcm ∧ sz = wavFileSize (writeWav s.decoded_pcm) ∧
    s' = { s with recording_count := s.recording_count + 1 } := by
  unfold save_recording at h
  split at h
  · simp at h
  · split at h
    · simp at h
    · split at h
      · simp only [SaveOutcome.ok.injEq, SaveResult.saved.injEq] at h
        obtain ⟨hs, hp, hd, hsz, hf⟩ := h
        exact ⟨hp.symm, hd.symm, hf.symm, hsz.symm, hs.symm⟩
      · simp at h

/-- Evaluation of `save_recording` on a kept session with a succeeding write. -/
lemma save_recording_kept_eval (s : AutoRecorder) (ts : String)
    (hne : s.decoded_pcm ≠ [])
    (hdur : MIN_RECORDING_DURATION ≤ recordedDuration s.decoded_pcm) :
    save_recording s ts true =
      SaveOutcome.ok { s with recording_count := s.recording_count + 1 }
        (SaveResult.saved (recordingFileName ts) (recordedDuration s.decoded_pcm)
          (wavFileSize (writeWav s.decoded_pcm)) (writeWav s.decoded_pcm)) := by
  unfold save_recording
  rw [if_neg hne, if_neg (not_lt.mpr hdur), if_pos rfl]

/-- The concrete one-frame session of 32000 zero bytes lasts exactly the
minimum duration, so it is kept. -/
lemma kept_example_duration :
    MIN_RECORDING_DURATION ≤ recordedDuration [List.replicate 32000 0] := by
  have h : totalBytes [List.replicate 32000 0] = 32000 := by
    rw [totalBytes, List.map_cons, List.map_nil, List.length_replicate,
      List.sum_cons, List.sum_nil]
    omega
  rw [recordedDuration, h]
  norm_num [MIN_RECORDING_DURATION, SAMPLE_RATE]

/-- Evaluation of `save_recording` on a kept session whose WAV write raises:
the exception escapes after `recording_count` was already incremented, and the
accumulated frames are still in place. -/
lemma save_recording_write_failure (s : AutoRecorder) (ts : String)
    (hne : s.decoded_pcm ≠ [])
    (hdur : MIN_RECORDING_DURATION ≤ recordedDuration s.decoded_pcm) :
    save_recording s ts false =
      SaveOutcome.raised { s with recording_count := s.recording_count + 1 } := by
  unfold save_recording
  rw [if_neg hne, if_neg (not_lt.mpr hdur), if_neg (by simp)]

/-- A silence-timeout finalize whose WAV write raises lets the exception
escape `handle_frame`: the state keeps `is_recording = true` and the
accumulated frames, and no event is emitted. -/
lemma timeout_write_failure_step (s : AutoRecorder) (now : ℚ) (pcm : List ℕ)
    (ts : String)
    (hrec : s.is_recording = true) (hns : is_speech_frame pcm = false)
    (ht : SILENCE_DURATION < now - s.last_speech_time)
    (hdur : MIN_RECORDING_DURATION ≤ recordedDuration (s.decoded_pcm ++ [pcm])) :
    handle_frame s now pcm ts false =
      StepResult.raised
        { s with decoded_pcm := s.decoded_pcm ++ [pcm]
                 recording_count := s.recording_count + 1 } := by
  have hsave := save_recording_write_failure
    { s with is_recording := true, decoded_pcm := s.decoded_pcm ++ [pcm] } ts
    (by simp) hdur
  simp [handle_frame, hns, hrec, ht, hsave]

/-! ### Claim C3 -/

/-- C3 (code bug): `save_recording` has no exception handling around the WAV
write, and `handle_audio` none around `save_recording` — so when the write
fails (disk full, permission denied) during a silence-timeout finalize, the
exception unwinds past the per-packet entry point, no failure event is
emitted, and the segmenter is left still recording with its accumulated
frames retained (lines 196-197 never run). Evaluated here at a concrete
failing input: a recording of just over one second finalized by a quiet
packet 10 s after the last speech, with the write failing. -/
theorem write_failure_escapes_handler :
    handle_audio
        { initState with
          is_recording := true
          decoded_pcm := [List.replicate 32000 0] }
        10 (List.replicate 10 0) (some [0]) "t" false =
      StepResult.raised
        { initState with
          is_recording := true
          decoded_pcm := [List.replicate 32000 0, [0, 0]]
          recording_count := 1
          total_packets := 1 } ∧
    ({ initState with
        is_recording := true
        decoded_pcm := [List.replicate 32000 0, [0, 0]]
        recording_count := 1
        total_packets := 1 } : AutoRecorder).is_recording = true ∧
    ({ initState with
        is_recording := true
        decoded_pcm := [List.replicate 32000 0, [0, 0]]
        recording_count := 1
        total_packets := 1 } : AutoRecorder).decoded_pcm ≠ [] := by
  refine ⟨?_, rfl, by exact List.cons_ne_nil _ _⟩
  have hdur : MIN_RECORDING_DURATION ≤
      recordedDuration ([List.replicate 32000 0] ++ [[0, 0]]) := by
    have h : totalBytes ([List.replicate 32000 0] ++ [[0, 0]]) = 32002 := by
      rw [totalBytes]
      rw [show ([List.replicate 32000 (0 : ℕ)] ++ [[0, 0]]) =
        [List.replicate 32000 (0 : ℕ), [0, 0]] from rfl]
      rw [List.map_cons, List.map_cons, List.map_nil, List.length_replicate,
        List.sum_cons, List.sum_cons, List.sum_nil]
      simp only [List.length_cons, List.length_nil]
      omega
    rw [recordedDuration, h]
    rw [MIN_RECORDING_DURATION, SAMPLE_RATE]
    norm_num
  have hstep := timeout_write_failure_step
    { initState with
      is_recording := true
      decoded_pcm := [List.replicate 32000 0]
      total_packets := 1 }
    10 [0, 0] "t" rfl (by decide)
    (by show SILENCE_DURATION < 10 - (0 : ℚ)
        norm_num [SILENCE_DURATION]) hdur
  have hdec : decode_opus (List.replicate 10 (0 : ℕ)).length (some [0]) = [0, 0] := by
    decide
  simp only [handle_audio, hdec]
  rw [if_neg (by simp)]
  exact hstep

/-! ### Claim C7 -/

/-- C7, counterexample: flushing while recording a kept-length session emits
the `SessionSaved` event but does NOT leave the segmenter idle — the source's
shutdown path calls `save_recording()` without resetting `is_recording` (or
`decoded_pcm`), so the resulting state still has `is_recording = true`. -/
theorem C7_counterexample :
    flush { initState with
        is_recording := true
        decoded_pcm := [List.replicate 32000 0] } "t" true =
      StepResult.ok
        { initState with
          is_recording := true
          decoded_pcm := [List.replicate 32000 0]
          recording_count := 1 }
        [Event.sessionSaved (recordingFileName "t")
          (recordedDuration [List.replicate 32000 0])
          (wavFileSize (writeWav [List.replicate 32000 0]))] ∧
    ({ initState with
        is_recording := true
        decoded_pcm := [List.replicate 32000 0]
        recording_count := 1 } : AutoRecorder).is_recording ≠ false := by
  constructor
  · have hsave := save_recording_kept_eval
      { initState with
        is_recording := true
        decoded_pcm := [List.replicate 32000 0] }
      "t" (by exact List.cons_ne_nil _ _) kept_example_duration
    rw [flush, if_pos ⟨rfl, by exact List.cons_ne_nil _ _⟩, hsave]
    rfl
  · simp

/-- C7 (amended): flushing while recording with a non-empty accumulation of at
least the minimum duration produces exactly one `SessionSaved` event whose
content — path, reported duration, byte size — is identical to what the
silence-timeout finalize (`save_recording`) produces from any state carrying
the same accumulated frames; but the segmenter is NOT returned to idle: the
state keeps `is_recording = true` and its frames, only `recording_count`
advancing (the pre-roll buffer is untouched, and is empty throughout any
reachable recording state). -/
theorem flush_saves_session (s s₂ : AutoRecorder) (ts : String)
    (hrec : s.is_recording = true) (hne : s.decoded_pcm ≠ [])
    (hdur : MIN_RECORDING_DURATION ≤ recordedDuration s.decoded_pcm)
    (hsame : s₂.decoded_pcm = s.decoded_pcm) :
    flush s ts true =
      StepResult.ok { s with recording_count := s.recording_count + 1 }
        [Event.sessionSaved (recordingFileName ts)
          (recordedDuration s.decoded_pcm)
          (wavFileSize (writeWav s.decoded_pcm))] ∧
    save_recording s₂ ts true =
      SaveOutcome.ok { s₂ with recording_count := s₂.recording_count + 1 }
        (SaveResult.saved (recordingFileName ts)
          (recordedDuration s.decoded_pcm)
          (wavFileSize (writeWav s.decoded_pcm)) (writeWav s.decoded_pcm)) := by
  constructor
  · have hsave := save_recording_kept_eval s ts hne hdur
    rw [flush, if_pos ⟨hrec, hne⟩, hsave]
    rfl
  · have hsave := save_recording_kept_eval s₂ ts
      (by rw [hsame]; exact hne) (by rw [hsame]; exact hdur)
    rw [hsave, hsame]

/-- Witness for C7's amended theorem at a concrete input: a one-second
recording state, compared against a second state with the same frames but
different timestamps and counters. -/
theorem flush_saves_session_witness :
    ({ initState with
        is_recording := true
        decoded_pcm := [List.replicate 32000 0] } : AutoRecorder).is_recording = true ∧
    ({ initState with
        is_recording := true
        decoded_pcm := [List.replicate 32000 0] } : AutoRecorder).decoded_pcm ≠ [] ∧
    MIN_RECORDING_DURATION ≤ recordedDuration [List.replicate 32000 0] ∧
    (flush { initState with
        is_recording := true
        decoded_pcm := [List.replicate 32000 0] } "t" true =
      StepResult.ok
        { { initState with
            is_recording := true
            decoded_pcm := [List.replicate 32000 0] } with
          recording_count := 0 + 1 }
        [Event.sessionSaved (recordingFileName "t")
          (recordedDuration [List.replicate 32000 0])
          (wavFileSize (writeWav [List.replicate 32000 0]))] ∧
    save_recording { initState with
        decoded_pcm := [List.replicate 32000 0]
        last_speech_time := 42
        total_packets := 9 } "t" true =
      SaveOutcome.ok
        { { initState with
            decoded_pcm := [List.replicate 32000 0]
            last_speech_time := 42
            total_packets := 9 } with
          recording_count := 0 + 1 }
        (SaveResult.saved (recordingFileName "t")
          (recordedDuration [List.replicate 32000 0])
          (wavFileSize (writeWav [List.replicate 32000 0]))
          (writeWav [List.replicate 32000 0]))) :=
  ⟨rfl, List.cons_ne_nil _ _, kept_example_duration,
    flush_saves_session
      { initState with
        is_recording := true
        decoded_pcm := [List.replicate 32000 0] }
      { initState with
        decoded_pcm := [List.replicate 32000 0]
        last_speech_time := 42
        total_packets := 9 }
      "t" rfl (List.cons_ne_nil _ _) kept_example_duration rfl⟩

/-! ### Claim C8 -/

/-- C8 (confirmed; WAV container size modelled from the spec): for every kept
session, the reported duration equals total sample count across its frames
divided by the sample rate, and the byte size equals the 44-byte header plus
2 bytes per sample. The evenness hypothesis holds for every decoder-produced
frame (`decode_opus_length_even`). -/
theorem kept_session_duration_size (s s' : AutoRecorder) (ts : String)
    (ioOk : Bool) (p : String) (d : ℚ) (sz : ℕ) (f : WavFile)
    (heven : ∀ fr ∈ s.decoded_pcm, fr.length % 2 = 0)
    (h : save_recording s ts ioOk = SaveOutcome.ok s' (SaveResult.saved p d sz f)) :
    d = (totalSamples s.decoded_pcm : ℚ) / (SAMPLE_RATE : ℚ) ∧
    sz = 44 + 2 * totalSamples s.decoded_pcm := by
  obtain ⟨hp, hd, hf, hsz, hs⟩ := save_recording_saved_inv s s' ts ioOk p d sz f h
  have h2 : 2 * totalSamples s.decoded_pcm = totalBytes s.decoded_pcm :=
    totalSamples_eq_half _ heven
  constructor
  · rw [hd, recordedDuration]
    have h3 : totalBytes s.decoded_pcm / 2 = totalSamples s.decoded_pcm := by
      omega
    rw [h3]
  · rw [hsz]
    have h4 : wavFileSize (writeWav s.decoded_pcm) = 44 + totalBytes s.decoded_pcm := by
      simp only [wavFileSize, writeWav, List.length_flatten, totalBytes]
    rw [h4]
    omega

/-- A concrete recording state holding one even-length frame of 32000 zero
bytes: 16000 samples, exactly the 1.0 s minimum, so it is kept. -/
def keptState : AutoRecorder :=
  { initState with is_recording := true, decoded_pcm := [List.replicate 32000 0] }

/-- Witness for C8 at the concrete kept session `keptState`. -/
theorem kept_session_duration_size_witness :
    (∀ fr ∈ keptState.decoded_pcm, fr.length % 2 = 0) ∧
    (recordedDuration keptState.decoded_pcm =
      (totalSamples keptState.decoded_pcm : ℚ) / (SAMPLE_RATE : ℚ) ∧
    wavFileSize (writeWav keptState.decoded_pcm) =
      44 + 2 * totalSamples keptState.decoded_pcm) := by
  have heven : ∀ fr ∈ keptState.decoded_pcm, fr.length % 2 = 0 := by
    intro fr hfr
    have hk : keptState.decoded_pcm = [List.replicate 32000 0] := rfl
    rw [hk, List.mem_singleton] at hfr
    rw [hfr, List.length_replicate]
  have hsave := save_recording_kept_eval keptState "t"
    (List.cons_ne_nil _ _) kept_example_duration
  exact ⟨heven,
    kept_session_duration_size keptState _ "t" true _ _ _ _ heven hsave⟩

/-! ### Claim C9 -/

/-- The path of a kept save, if any. -/
def savedPathOf : SaveOutcome → Option String
  | SaveOutcome.ok _ (SaveResult.saved p _ _ _) => some p
  | _ => none

/-- C9, counterexample: the output path is `omi_auto_{timestamp}.wav` — the
session sequence number (`recording_count`) is incremented but never used in
the name — so two kept sessions saved with the same wall-clock timestamp
string receive the SAME path even though their sequence numbers differ,
contradicting the claimed distinct-path guarantee. -/
theorem C9_counterexample :
    savedPathOf (save_recording
      { initState with
        is_recording := true
        decoded_pcm := [List.replicate 32000 0] } "t" true) =
      some (recordingFileName "t") ∧
    savedPathOf (save_recording
      { initState with
        is_recording := true
        decoded_pcm := [List.replicate 32000 0]
        recording_count := 5 } "t" true) =
      some (recordingFileName "t") ∧
    ({ initState with
        is_recording := true
        decoded_pcm := [List.replicate 32000 0] } : AutoRecorder).recording_count ≠
      ({ initState with
        is_recording := true
        decoded_pcm := [List.replicate 32000 0]
        recording_count := 5 } : AutoRecorder).recording_count := by
  refine ⟨?_, ?_, by simp [initState]⟩
  · rw [save_recording_kept_eval
      { initState with
        is_recording := true
        decoded_pcm := [List.replicate 32000 0] }
      "t" (List.cons_ne_nil _ _) kept_example_duration]
    rfl
  · rw [save_recording_kept_eval
      { initState with
        is_recording := true
        decoded_pcm := [List.replicate 32000 0]
        recording_count := 5 }
      "t" (List.cons_ne_nil _ _) kept_example_duration]
    rfl

/-- C9 (amended): for every kept session the frames are serialized in order
into a mono, 16-bit little-endian PCM container at the fixed sample rate —
the data chunk is the in-order concatenation of the frames, and under the
sample interpretation it is the in-order concatenation of the frames' sample
sequences — but the output path is derived from the capture timestamp ONLY
(`omi_auto_{timestamp}.wav`); the session sequence number is not part of the
name, so two kept sessions saved with the same timestamp string share a
path. -/
theorem kept_session_serialization (s s' : AutoRecorder) (ts : String)
    (ioOk : Bool) (p : String) (d : ℚ) (sz : ℕ) (f : WavFile)
    (heven : ∀ fr ∈ s.decoded_pcm, fr.length % 2 = 0)
    (h : save_recording s ts ioOk = SaveOutcome.ok s' (SaveResult.saved p d sz f)) :
    f.nchannels = 1 ∧ f.sampwidth = 2 ∧ f.framerate = SAMPLE_RATE ∧
    f.data = s.decoded_pcm.flatten ∧
    bytesToSamples f.data = (s.decoded_pcm.map bytesToSamples).flatten ∧
    p = recordingFileName ts := by
  obtain ⟨hp, hd, hf, hsz, hs⟩ := save_recording_saved_inv s s' ts ioOk p d sz f h
  subst hf
  exact ⟨rfl, rfl, rfl, rfl, bytesToSamples_flatten _ heven, hp⟩

/-- A concrete recording state holding two even-length frames (32000 zero
bytes, then the two bytes 1, 2), kept since its duration exceeds 1.0 s. -/
def keptState₂ : AutoRecorder :=
  { initState with
    is_recording := true
    decoded_pcm := [List.replicate 32000 0, [1, 2]] }

/-- Witness for C9's amended theorem at the concrete two-frame kept session
`keptState₂`. -/
theorem kept_session_serialization_witness :
    (∀ fr ∈ keptState₂.decoded_pcm, fr.length % 2 = 0) ∧
    ((writeWav keptState₂.decoded_pcm).nchannels = 1 ∧
    (writeWav keptState₂.decoded_pcm).sampwidth = 2 ∧
    (writeWav keptState₂.decoded_pcm).framerate = SAMPLE_RATE ∧
    (writeWav keptState₂.decoded_pcm).data = keptState₂.decoded_pcm.flatten ∧
    bytesToSamples (writeWav keptState₂.decoded_pcm).data =
      (keptState₂.decoded_pcm.map bytesToSamples).flatten ∧
    recordingFileName "t" = recordingFileName "t") := by
  have heven : ∀ fr ∈ keptState₂.decoded_pcm, fr.length % 2 = 0 := by
    intro fr hfr
    have hk : keptState₂.decoded_pcm = [List.replicate 32000 0, [1, 2]] := rfl
    rw [hk, List.mem_cons, List.mem_singleton] at hfr
    rcases hfr with h1 | h2
    · rw [h1, List.length_replicate]
    · rw [h2]
      rfl
  have hne : keptState₂.decoded_pcm ≠ [] := List.cons_ne_nil _ _
  have hdur : MIN_RECORDING_DURATION ≤ recordedDuration keptState₂.decoded_pcm := by
    have h : totalBytes keptState₂.decoded_pcm = 32002 := by
      have hk : keptState₂.decoded_pcm = [List.replicate 32000 0, [1, 2]] := rfl
      rw [hk, totalBytes, List.map_cons, List.map_cons, List.map_nil,
        List.length_replicate, List.sum_cons, List.sum_cons, List.sum_nil]
      simp only [List.length_cons, List.length_nil]
      omega
    rw [recordedDuration, h]
    rw [MIN_RECORDING_DURATION, SAMPLE_RATE]
    norm_num
  have hsave := save_recording_kept_eval keptState₂ "t" hne hdur
  exact ⟨heven,
    kept_session_serialization keptState₂ _ "t" true _ _ _ _ heven hsave⟩
